import Mathlib

/-!
Verification development for the LMU settings-manager configuration codec.

This file gives a shallow embedding of the core of the repository:

* `json_lmu_editor/core/parsers/json_parser.py` (field model, flattening,
  structure-preserving JSON writer),
* `json_lmu_editor/core/parsers/ini_parser.py` (INI parser and writer),
* `json_lmu_editor/core/models/field_state.py` (per-field change tracking),
* `json_lmu_editor/core/models/configuration_model.py` (model layer),
* `json_lmu_editor/core/comparison_engine.py` (type-aware value equality),

and proves or refutes the behavioural claims about them.  Python values are
embedded as the inductive `PyValue`, with floats represented as exact
rationals; file input/output is abstracted away (parsers take the file's
lines, writers return the lines they would write, and the success of a raw
file-system write enters as a boolean parameter).
-/

/-- Dynamically typed Python value as passed around by the parsers, the
configuration model and the comparison engine.  Python `float` is embedded
as an exact rational (the repository never relies on rounding, infinities
or NaN); `tuple` and `list` are kept distinct because the INI parser
produces tuples while JSON arrays are lists. -/
inductive PyValue where
  | none
  | bool (b : Bool)
  | int (n : ℤ)
  | float (q : ℚ)
  | str (s : String)
  | list (xs : List PyValue)
  | tuple (xs : List PyValue)

mutual

/-- Python `==` on embedded values: numbers (`bool` counts as a number,
`True == 1` holds in Python) compare by numeric value, strings by equality,
sequences elementwise with `list` never equal to `tuple`, and values of
unrelated types are unequal. -/
def pyEq : PyValue → PyValue → Bool
  | .bool x, .bool y => x == y
  | .bool x, .int n => ((if x then 1 else 0 : ℤ) == n)
  | .bool x, .float q => ((if x then (1 : ℚ) else 0) == q)
  | .int m, .bool y => (m == (if y then 1 else 0 : ℤ))
  | .int m, .int n => m == n
  | .int m, .float q => ((m : ℚ) == q)
  | .float p, .bool y => (p == (if y then (1 : ℚ) else 0))
  | .float p, .int n => (p == (n : ℚ))
  | .float p, .float q => p == q
  | .none, .none => true
  | .str s, .str t => s == t
  | .list xs, .list ys => pyEqList xs ys
  | .tuple xs, .tuple ys => pyEqList xs ys
  | _, _ => false

/-- Elementwise Python `==` on sequences of equal length. -/
def pyEqList : List PyValue → List PyValue → Bool
  | [], [] => true
  | x :: xs, y :: ys => pyEq x y && pyEqList xs ys
  | _, _ => false

end

/-- Python `!=`. -/
def pyNe (a b : PyValue) : Bool := !(pyEq a b)

/-- Python truthiness of a value (`bool(value)`). -/
def pyTruthy : PyValue → Bool
  | .none => false
  | .bool b => b
  | .int n => n != 0
  | .float q => q != 0
  | .str s => s != ""
  | .list xs => !xs.isEmpty
  | .tuple xs => !xs.isEmpty

/-- The characters Python's `str.strip()` and the regex class `\s` treat as
whitespace (ASCII fragment). -/
def isPySpace (c : Char) : Bool :=
  c == ' ' || c == '\t' || c == '\n' || c == '\r' || c == '\x0b' || c == '\x0c'

/-- Strip whitespace from both ends of a character list. -/
def stripChars (cs : List Char) : List Char :=
  ((cs.dropWhile isPySpace).reverse.dropWhile isPySpace).reverse

/-- Python `str.strip()`. -/
def pyStrip (s : String) : String := String.mk (stripChars s.data)

/-- Python `str.lower()` (ASCII). -/
def pyLower (s : String) : String := String.mk (s.data.map Char.toLower)

/-- `pat` is a prefix of `s` (decision procedure on character lists). -/
def listIsPre : List Char → List Char → Bool
  | [], _ => true
  | _ :: _, [] => false
  | a :: as, b :: bs => a == b && listIsPre as bs

/-- Python `str.startswith`. -/
def pyStartsWith (s t : String) : Bool := listIsPre t.data s.data

/-- Python `str.endswith`. -/
def pyEndsWith (s t : String) : Bool := listIsPre t.data.reverse s.data.reverse

/-- Index of the first occurrence of `pat` in `s`, if any. -/
def findSubAux (pat : List Char) : List Char → Option Nat
  | [] => if pat.isEmpty then some 0 else Option.none
  | c :: cs => if listIsPre pat (c :: cs) then some 0 else (findSubAux pat cs).map (· + 1)

/-- Python `pat in s` on strings. -/
def pyContains (s pat : String) : Bool := (findSubAux pat.data s.data).isSome

/-- Python `s.split(pat, 1)` for a `pat` known to occur in `s`: the text
before the first occurrence and the text after it. -/
def splitOnceChars (s pat : List Char) : List Char × List Char :=
  match findSubAux pat s with
  | some i => (s.take i, s.drop (i + pat.length))
  | Option.none => (s, [])

/-- Python `s.split(pat, 1)` on strings (callers guard with `pat in s`). -/
def pySplitOnce (s pat : String) : String × String :=
  let p := splitOnceChars s.data pat.data
  (String.mk p.1, String.mk p.2)

/-- Fuel-driven worker for `pySplit`; the fuel is an upper bound on the
number of separator occurrences, so `s.length` always suffices. -/
def pySplitGo (p : Char) (ps : List Char) : Nat → List Char → List (List Char)
  | 0, s => [s]
  | fuel + 1, s =>
    match findSubAux (p :: ps) s with
    | Option.none => [s]
    | some i => s.take i :: pySplitGo p ps fuel (s.drop (i + ps.length + 1))

/-- Python `s.split(sep)` for a non-empty separator. -/
def pySplit (s sep : String) : List String :=
  match sep.data with
  | [] => [s]
  | p :: ps => (pySplitGo p ps s.data.length s.data).map String.mk

/-- Fuel-driven worker for `pyReplace`. -/
def pyReplaceGo (pat rep : List Char) : Nat → List Char → List Char
  | 0, s => s
  | _, [] => []
  | fuel + 1, c :: cs =>
    if listIsPre pat (c :: cs) then
      rep ++ pyReplaceGo pat rep fuel ((c :: cs).drop pat.length)
    else
      c :: pyReplaceGo pat rep fuel cs

/-- Python `s.replace(old, new)` for non-empty `old`: replaces every
(non-overlapping, left-to-right) occurrence. -/
def pyReplace (s pat rep : List Char) : List Char :=
  if pat.isEmpty then s else pyReplaceGo pat rep s.length s

/-- Numeric value of a digit string. -/
def natOfDigits (cs : List Char) : Nat :=
  cs.foldl (fun a c => a * 10 + (c.toNat - 48)) 0

/-- Optional leading sign of a numeric literal. -/
def parseSign : List Char → ℤ × List Char
  | '+' :: cs => (1, cs)
  | '-' :: cs => (-1, cs)
  | cs => (1, cs)

/-- Python `int(s)` for decimal string input: optional surrounding
whitespace, optional sign, then digits.  (Underscore digit separators and
non-ASCII digits, which CPython also accepts, are outside the embedding.) -/
def pyIntParse (s : String) : Option ℤ :=
  let cs := stripChars s.data
  let sg := parseSign cs
  if (!sg.2.isEmpty) && sg.2.all Char.isDigit then
    some (sg.1 * (natOfDigits sg.2 : ℤ))
  else Option.none

/-- Python `float(s)` for finite decimal literals: optional whitespace and
sign, integer and/or fractional digits, optional exponent.  The exact value
`sign * digits(ip ++ fp) / 10^|fp| * 10^(±exp)` is assembled as a single
quotient of integers.  (`inf`/`nan` literals and underscore separators,
which CPython also accepts, are outside the embedding; theorems that reason
about parse failure exclude them explicitly.) -/
def pyFloatParse (s : String) : Option ℚ :=
  let cs := stripChars s.data
  let sg := parseSign cs
  let ip := sg.2.takeWhile Char.isDigit
  let r1 := sg.2.drop ip.length
  let fp := match r1 with
    | '.' :: t => t.takeWhile Char.isDigit
    | _ => []
  let r2 := match r1 with
    | '.' :: t => t.drop fp.length
    | _ => r1
  if ip.isEmpty && fp.isEmpty then Option.none
  else
    let num : ℤ := sg.1 * (natOfDigits (ip ++ fp) : ℤ)
    let den : ℕ := 10 ^ fp.length
    match r2 with
    | [] => some (mkRat num den)
    | e :: t =>
      if e == 'e' || e == 'E' then
        let esg := parseSign t
        if (!esg.2.isEmpty) && esg.2.all Char.isDigit then
          if esg.1 == 1 then some (mkRat (num * ((10 : ℕ) ^ natOfDigits esg.2 : ℕ)) den)
          else some (mkRat num (den * 10 ^ natOfDigits esg.2))
        else Option.none
      else Option.none

/-- Recognises the special CPython float literals (`inf`, `infinity`,
`nan`, optionally signed) that `pyFloatParse` deliberately does not model. -/
def isSpecialFloatText (s : String) : Bool :=
  let t := pyLower (pyStrip s)
  let u := match t.data with
    | '+' :: cs => String.mk cs
    | '-' :: cs => String.mk cs
    | _ => t
  u == "inf" || u == "infinity" || u == "nan"

/-- The string contains an underscore (CPython accepts `1_0` as a numeric
literal; the embedding of `int()`/`float()` does not model that). -/
def hasUnderscore (s : String) : Bool := s.data.any (· == '_')

/-- Python `int(x)` applied to a float: truncation toward zero. -/
def intTrunc (q : ℚ) : ℤ := Int.sign q.num * ((q.num.natAbs : ℤ) / (q.den : ℤ))

/-- Field data types (`json_parser.FieldType`). -/
inductive FieldType where
  | string
  | integer
  | float
  | boolean
  | array
  | object
deriving DecidableEq

/-- Information about one configuration field (`json_parser.FieldInfo`).
`original_value` is set to `value` by the constructor and is what the
writers' dirty check compares against; `line_number`/`original_line` are
the extra attributes the INI parser attaches (`hasattr` is modelled by
`Option.isSome`). -/
structure FieldInfo where
  path : String
  value : PyValue
  description : String
  type : FieldType
  category : String
  original_value : PyValue
  line_number : Option Nat := Option.none
  original_line : Option String := Option.none

/-- The `FieldInfo.__init__` constructor: `original_value` starts out as
the parsed `value`. -/
def mkFieldInfo (path : String) (value : PyValue) (description : String)
    (t : FieldType) (category : String) : FieldInfo :=
  { path := path, value := value, description := description, type := t,
    category := category, original_value := value }

/-- Ordered-dictionary lookup (first entry with the given key). -/
def alLookup {α : Type} (l : List (String × α)) (k : String) : Option α :=
  match l.find? (fun p => p.1 == k) with
  | some p => some p.2
  | Option.none => Option.none

/-- Ordered-dictionary assignment: replaces in place if the key exists,
otherwise appends at the end (Python `dict` insertion semantics). -/
def alUpdate {α : Type} : List (String × α) → String → α → List (String × α)
  | [], k, v => [(k, v)]
  | p :: rest, k, v => if p.1 == k then (k, v) :: rest else p :: alUpdate rest k v

/-- Apply a function to the value stored under a key, if present (used for
in-place mutation of an existing dictionary entry). -/
def alAdjust {α : Type} (l : List (String × α)) (k : String) (f : α → α) :
    List (String × α) :=
  l.map (fun p => if p.1 == k then (p.1, f p.2) else p)

/-- Container for parsed configuration data (`json_parser.ConfigData`);
ordered dictionaries are association lists in document order. -/
structure ConfigData where
  fields : List (String × FieldInfo) := []
  categories : List (String × List String) := []
  descriptions : List (String × String) := []
  raw_lines : List String := []

/-- `_build_categories` (identical in both parsers): group field paths by
their category, first-seen category order, document order within. -/
def buildCategories (fields : List (String × FieldInfo)) :
    List (String × List String) :=
  fields.foldl
    (fun cats pf =>
      if (alLookup cats pf.2.category).isSome then
        alAdjust cats pf.2.category (fun l => l ++ [pf.1])
      else cats ++ [(pf.2.category, [pf.1])])
    []

/-- The order-preserving JSON document tree produced by `json.loads` with
`object_pairs_hook=OrderedDict`: objects are ordered key/value lists, all
other JSON values are leaves. -/
inductive JsonVal where
  | obj (entries : List (String × JsonVal))
  | leaf (v : PyValue)

/-- `JsonWithCommentsParser.preserve_types`: infer the `FieldType` of a
parsed JSON value (`bool` before `int`, as in the source, since Python's
`bool` subclasses `int`; anything unrecognised is a string). -/
def preserveTypes : JsonVal → FieldType
  | .obj _ => FieldType.object
  | .leaf w =>
    match w with
    | .bool _ => FieldType.boolean
    | .int _ => FieldType.integer
    | .float _ => FieldType.float
    | .list _ => FieldType.array
    | _ => FieldType.string

/-- `descriptions.get(key, "") or descriptions.get(current_path, "")`:
lookup by bare key first, falling back (on `None`-or-empty) to the full
dotted path. -/
def descLookup (descs : List (String × String)) (key path : String) : String :=
  let d1 := (alLookup descs key).getD ""
  if d1 != "" then d1 else (alLookup descs path).getD ""

mutual

/-- `JsonWithCommentsParser.build_field_hierarchy`: flatten nested JSON
into dotted-path fields.  For an object-valued entry the recursive result
is re-tagged with `category := key` — so after all enclosing levels have
run, every nested field ends up carrying its top-level ancestor's key. -/
def buildFieldHierarchy (descs : List (String × String)) :
    List (String × JsonVal) → String → List (String × FieldInfo)
  | [], _ => []
  | (key, v) :: rest, pp =>
    buildFieldEntry descs key v pp ++ buildFieldHierarchy descs rest pp

/-- One loop iteration of `build_field_hierarchy`: either recurse into a
child object (overwriting every produced field's category with this key)
or emit a leaf `FieldInfo`. -/
def buildFieldEntry (descs : List (String × String)) (key : String) :
    JsonVal → String → List (String × FieldInfo)
  | .obj sub, pp =>
    (buildFieldHierarchy descs sub (if pp == "" then key else pp ++ "." ++ key)).map
      (fun pf => (pf.1, { pf.2 with category := key }))
  | .leaf w, pp =>
    [(if pp == "" then key else pp ++ "." ++ key,
      mkFieldInfo (if pp == "" then key else pp ++ "." ++ key) w
        (descLookup descs key (if pp == "" then key else pp ++ "." ++ key))
        (preserveTypes (.leaf w)) (if pp == "" then "General" else pp))]

end

/-- Left-pad a digit string with zeros to the given width. -/
def padZeros (s : String) (n : Nat) : String :=
  String.mk (List.replicate (n - s.data.length) '0') ++ s

/-- Python `repr`/`str` of a float, for values with finite decimal
expansion (the shapes the repository writes); assembled from integer
arithmetic so that it evaluates. -/
def floatRepr (q : ℚ) : String :=
  let sgn := if q.num < 0 then "-" else ""
  if q.den == 1 then sgn ++ toString q.num.natAbs ++ ".0"
  else
    match (List.range 17).find? (fun k => 10 ^ (k + 1) % q.den == 0) with
    | some k =>
      let kk := k + 1
      let m := q.num.natAbs * (10 ^ kk / q.den)
      sgn ++ toString (m / 10 ^ kk) ++ "." ++ padZeros (toString (m % 10 ^ kk)) kk
    | Option.none => sgn ++ toString q.num.natAbs ++ "/" ++ toString q.den

mutual

/-- Python `str(value)` on the value shapes the repository produces. -/
def pyStr : PyValue → String
  | .str s => s
  | .bool b => if b then "True" else "False"
  | .int n => toString n
  | .float q => floatRepr q
  | .none => "None"
  | .list xs => "[" ++ String.intercalate ", " (pyReprList xs) ++ "]"
  | .tuple [x] => "(" ++ pyRepr x ++ ",)"
  | .tuple xs => "(" ++ String.intercalate ", " (pyReprList xs) ++ ")"

/-- Python `repr(value)` (as used by `str` on container elements). -/
def pyRepr : PyValue → String
  | .str s => "'" ++ s ++ "'"
  | .bool b => if b then "True" else "False"
  | .int n => toString n
  | .float q => floatRepr q
  | .none => "None"
  | .list xs => "[" ++ String.intercalate ", " (pyReprList xs) ++ "]"
  | .tuple [x] => "(" ++ pyRepr x ++ ",)"
  | .tuple xs => "(" ++ String.intercalate ", " (pyReprList xs) ++ ")"

/-- `repr` of each element of a sequence. -/
def pyReprList : List PyValue → List String
  | [] => []
  | x :: xs => pyRepr x :: pyReprList xs

end

mutual

/-- `json.dumps(value)` with default separators, on the value shapes the
repository produces (string escaping is not modelled). -/
def jsonDumps : PyValue → String
  | .str s => "\"" ++ s ++ "\""
  | .bool b => if b then "true" else "false"
  | .int n => toString n
  | .float q => floatRepr q
  | .none => "null"
  | .list xs => "[" ++ String.intercalate ", " (jsonDumpsList xs) ++ "]"
  | .tuple xs => "[" ++ String.intercalate ", " (jsonDumpsList xs) ++ "]"

/-- `json.dumps` of each element of an array. -/
def jsonDumpsList : List PyValue → List String
  | [] => []
  | x :: xs => jsonDumps x :: jsonDumpsList xs

end

/-- `JsonWithCommentsParser._format_value_for_json`. -/
def formatValueForJson (v : PyValue) (t : FieldType) : String :=
  match t with
  | FieldType.string => "\"" ++ pyStr v ++ "\""
  | FieldType.boolean => if pyTruthy v then "true" else "false"
  | FieldType.integer => pyStr v
  | FieldType.float => pyStr v
  | FieldType.array => jsonDumps v
  | FieldType.object => jsonDumps v

/-- Attempt of the regex `"([^\"]+)":\s*([^,\x7d]+)` at the current
position: a quoted non-empty name immediately followed by a colon, then
greedy whitespace, then a non-empty value token running up to the next
comma or closing brace (backtracking into the whitespace when the value
would otherwise be empty, exactly as the greedy regex does). -/
def jsonMatchAt (cs : List Char) : Option (List Char × List Char) :=
  match cs with
  | '"' :: rest =>
    let name := rest.takeWhile (fun c => !(c == '"'))
    if name.isEmpty then Option.none
    else
      match rest.drop name.length with
      | '"' :: ':' :: rest2 =>
        let ws := rest2.takeWhile isPySpace
        let rest3 := rest2.drop ws.length
        match rest3 with
        | c :: _ =>
          if c == ',' || c == '\x7d' then
            match ws.getLast? with
            | some w => some (name, [w])
            | Option.none => Option.none
          else some (name, rest3.takeWhile (fun d => !(d == ',' || d == '\x7d')))
        | [] =>
          match ws.getLast? with
          | some w => some (name, [w])
          | Option.none => Option.none
      | _ => Option.none
  | _ => Option.none

/-- `re.search` for the pattern above: leftmost position that matches. -/
def jsonFieldSearch : List Char → Option (List Char × List Char)
  | [] => Option.none
  | c :: cs =>
    match jsonMatchAt (c :: cs) with
    | some r => some r
    | Option.none => jsonFieldSearch cs

/-- The writer's field lookup: first entry whose path ends with (or
equals) the bare key name found on the line. -/
def jsonFindField (fields : List (String × FieldInfo)) (name : String) :
    Option FieldInfo :=
  match fields.find? (fun pf => pyEndsWith pf.1 name || pf.1 == name) with
  | some pf => some pf.2
  | Option.none => Option.none

/-- The lookup chain of the JSON writer's line loop: the regex match on
the line (name and value text), combined with the first suffix-matching
field, when both exist. -/
def jsonResolveField (fields : List (String × FieldInfo)) (line : String) :
    Option ((List Char × List Char) × FieldInfo) :=
  match jsonFieldSearch line.data with
  | Option.none => Option.none
  | some m =>
    match jsonFindField fields (String.mk m.1) with
    | Option.none => Option.none
    | some fi => some (m, fi)

/-- One line of `JsonWithCommentsParser.write_preserving_structure`: if the
line matches the field regex and the first suffix-matching field is dirty
(`value != original_value`), the matched value text is replaced (every
occurrence, Python `str.replace`) by the re-formatted value; otherwise the
line is kept verbatim. -/
def jsonPatchLine (fields : List (String × FieldInfo)) (line : String) : String :=
  match jsonResolveField fields line with
  | Option.none => line
  | some r =>
    if pyNe r.2.value r.2.original_value then
      String.mk (pyReplace line.data r.1.2 (formatValueForJson r.2.value r.2.type).data)
    else line

/-- `JsonWithCommentsParser.write_preserving_structure`, minus file I/O:
the lines that would be written out. -/
def jsonWritePreservingStructure (cfg : ConfigData) : List String :=
  cfg.raw_lines.map (jsonPatchLine cfg.fields)

/-- Membership in `("true", "on", "yes", "1")`. -/
def isTruthyWord (low : String) : Bool :=
  low == "true" || low == "on" || low == "yes" || low == "1"

/-- Membership in `("false", "off", "no", "0")`. -/
def isFalsyWord (low : String) : Bool :=
  low == "false" || low == "off" || low == "no" || low == "0"

/-- `IniParser._parse_ini_value`: coerce an INI value string, in priority
order — case-insensitive boolean words, then integer (only without a dot)
or float (with a dot), then a parenthesized comma-separated tuple whose
parts are parsed as floats with a per-part string fallback, else the plain
string. -/
def parseIniValue (s0 : String) : PyValue :=
  let s := pyStrip s0
  let low := pyLower s
  if isTruthyWord low then .bool true
  else if isFalsyWord low then .bool false
  else
    let numv : Option PyValue :=
      if !(s.data.any (· == '.')) then (pyIntParse s).map PyValue.int
      else (pyFloatParse s).map PyValue.float
    match numv with
    | some v => v
    | Option.none =>
      if pyStartsWith s "(" && pyEndsWith s ")" then
        let inner := String.mk ((s.data.drop 1).dropLast)
        let parts := (pySplit inner ",").map pyStrip
        .tuple (parts.map (fun p =>
          match pyFloatParse p with
          | some q => PyValue.float q
          | Option.none => PyValue.str p))
      else .str s

/-- Per-entry record stored by `IniParser.parse_with_comments`. -/
structure IniRecord where
  value : PyValue
  comment : String
  line_number : Nat
  original_line : String

/-- The regex `^\[([^\]]+)\]` applied to a stripped line: a non-empty
section name between brackets (trailing text after `]` is allowed). -/
def iniSectionMatch (ls : String) : Option String :=
  match ls.data with
  | '[' :: rest =>
    let name := rest.takeWhile (fun c => !(c == ']'))
    if name.isEmpty then Option.none
    else if (rest.drop name.length).isEmpty then Option.none
    else some (String.mk name)
  | _ => Option.none

/-- The line loop of `IniParser.parse_with_comments`.  Blank and `//` lines
are skipped, `[Section]` opens (or re-opens) a section, and a `key=value`
line inside a section records the coerced value together with its trimmed
inline comment, line number and original line.  A line whose `=` sits only
inside the inline comment makes Python's tuple unpacking raise, which is
the error case. -/
def parseIniLinesGo (data : List (String × List (String × IniRecord)))
    (cur : Option String) (n : Nat) :
    List String → Except String (List (String × List (String × IniRecord)))
  | [] => Except.ok data
  | line :: rest =>
    let ls := pyStrip line
    if ls == "" then parseIniLinesGo data cur (n + 1) rest
    else if pyStartsWith ls "//" then parseIniLinesGo data cur (n + 1) rest
    else
      match iniSectionMatch ls with
      | some sec =>
        parseIniLinesGo
          (if (alLookup data sec).isSome then data else data ++ [(sec, [])])
          (some sec) (n + 1) rest
      | Option.none =>
        match cur with
        | some sec =>
          if pyContains ls "=" then
            let lc :=
              if pyContains ls "//" then
                let p := pySplitOnce ls "//"
                (pyStrip p.1, pyStrip p.2)
              else (ls, "")
            if pyContains lc.1 "=" then
              let kv := pySplitOnce lc.1 "="
              let key := pyStrip kv.1
              let record : IniRecord :=
                { value := parseIniValue (pyStrip kv.2), comment := lc.2,
                  line_number := n, original_line := line }
              parseIniLinesGo
                (alAdjust data sec (fun entries => alUpdate entries key record))
                cur (n + 1) rest
            else Except.error "ValueError: not enough values to unpack"
          else parseIniLinesGo data cur (n + 1) rest
        | Option.none => parseIniLinesGo data cur (n + 1) rest

/-- `IniParser.parse_with_comments`. -/
def parseWithComments (lines : List String) :
    Except String (List (String × List (String × IniRecord))) :=
  parseIniLinesGo [] Option.none 0 lines

/-- `IniParser._determine_field_type`. -/
def determineFieldType : PyValue → FieldType
  | .bool _ => FieldType.boolean
  | .int _ => FieldType.integer
  | .float _ => FieldType.float
  | .list _ => FieldType.array
  | .tuple _ => FieldType.array
  | _ => FieldType.string

/-- `IniParser._build_field_info`: flatten the section map into
`Section.key` fields; every field is created with
`original_value = value` and carries `line_number`/`original_line`. -/
def buildFieldInfoIni (data : List (String × List (String × IniRecord))) :
    List (String × FieldInfo) :=
  (data.map (fun se => se.2.map (fun kv =>
    (se.1 ++ "." ++ kv.1,
      ({ path := se.1 ++ "." ++ kv.1, value := kv.2.value,
         description := kv.2.comment, type := determineFieldType kv.2.value,
         category := se.1, original_value := kv.2.value,
         line_number := some kv.2.line_number,
         original_line := some kv.2.original_line } : FieldInfo))))).flatten

/-- `IniParser.parse_file` minus file I/O: field table from the lines. -/
def iniParseFields (lines : List String) :
    Except String (List (String × FieldInfo)) :=
  (parseWithComments lines).map buildFieldInfoIni

/-- `IniParser.parse_file` minus file I/O: the full `ConfigData`. -/
def iniParseConfig (lines : List String) : Except String ConfigData :=
  (parseWithComments lines).map (fun d =>
    let fs := buildFieldInfoIni d
    { fields := fs, categories := buildCategories fs, raw_lines := lines })

/-- Python `f"{v:.3f}"` on an exact rational: fixed three decimals,
round-half-to-even, via integer arithmetic. -/
def format3 (q : ℚ) : String :=
  let sgn := if q.num < 0 then "-" else ""
  let a := q.num.natAbs * 1000
  let f := a / q.den
  let r := a % q.den
  let n :=
    if 2 * r < q.den then f
    else if 2 * r > q.den then f + 1
    else if f % 2 == 0 then f else f + 1
  sgn ++ toString (n / 1000) ++ "." ++ padZeros (toString (n % 1000)) 3

/-- `IniParser._format_value_for_ini`: booleans as `1`/`0`, tuples as
`(v0, v1, …)` with floats at three decimals, everything else `str(value)`. -/
def formatValueForIni (v : PyValue) (t : FieldType) : String :=
  match t with
  | FieldType.boolean => if pyTruthy v then "1" else "0"
  | FieldType.array =>
    match v with
    | .tuple xs =>
      "(" ++ String.intercalate ", "
        (xs.map (fun w => match w with | .float q => format3 q | _ => pyStr w)) ++ ")"
    | _ => pyStr v
  | _ => pyStr v

/-- The regex `^([^=]+)=` on the stripped line, returning the trimmed key. -/
def iniKeyOfLine (ls : String) : Option String :=
  let k := ls.data.takeWhile (fun c => !(c == '='))
  if k.isEmpty then Option.none
  else
    match ls.data.drop k.length with
    | '=' :: _ => some (pyStrip (String.mk k))
    | _ => Option.none

/-- The INI writer's field lookup: first entry whose path ends with
`"." ++ key`. -/
def iniFindField (fields : List (String × FieldInfo)) (key : String) :
    Option FieldInfo :=
  match fields.find? (fun pf => pyEndsWith pf.1 ("." ++ key)) with
  | some pf => some pf.2
  | Option.none => Option.none

/-- The lookup chain of the INI writer's line loop: for a non-blank,
non-comment, non-section line containing `=`, the extracted key together
with the first field whose path ends in `"." ++ key`, when both exist. -/
def iniResolveField (fields : List (String × FieldInfo)) (line : String) :
    Option (String × FieldInfo) :=
  let ls := pyStrip line
  if ls == "" || pyStartsWith ls "//" || pyStartsWith ls "[" then Option.none
  else if pyContains ls "=" then
    match iniKeyOfLine ls with
    | Option.none => Option.none
    | some key =>
      match iniFindField fields key with
      | Option.none => Option.none
      | some fi => some (key, fi)
  else Option.none

/-- One line of `IniParser.write_preserving_structure`: blank, comment and
section lines pass through; a `key=value` line whose first
suffix-matching field is dirty is rebuilt as `key=<new value>` with the
original inline comment text re-attached; everything else is verbatim. -/
def iniPatchLine (fields : List (String × FieldInfo)) (line : String) : String :=
  match iniResolveField fields line with
  | Option.none => line
  | some kf =>
    if kf.2.line_number.isSome then
      if pyNe kf.2.value kf.2.original_value then
        let newv := formatValueForIni kf.2.value kf.2.type
        if pyContains line "//" then
          let p := pySplitOnce line "//"
          kf.1 ++ "=" ++ newv ++ " //" ++ p.2
        else kf.1 ++ "=" ++ newv ++ "\n"
      else line
    else line

/-- `IniParser.write_preserving_structure`, minus file I/O. -/
def iniWritePreservingStructure (cfg : ConfigData) : List String :=
  cfg.raw_lines.map (iniPatchLine cfg.fields)

/-- Field validation states (`field_state.ValidationState`). -/
inductive ValidationState where
  | valid
  | warning
  | error
deriving DecidableEq

/-- `field_state.FieldState`: per-field change tracking used by the
configuration model, independent of the parser's `FieldInfo`.  The ambient
clock (`datetime.now()`) enters as an explicit `now` parameter where
needed. -/
structure FieldState where
  original_value : PyValue
  current_value : PyValue
  is_modified : Bool
  modification_time : Option Nat
  validation_errors : List String
  validation_warnings : List String
  validation_state : ValidationState

/-- `FieldState.__init__`. -/
def FieldState.init (v : PyValue) : FieldState :=
  { original_value := v, current_value := v, is_modified := false,
    modification_time := Option.none, validation_errors := [],
    validation_warnings := [], validation_state := ValidationState.valid }

/-- `FieldState.set_value`: returns `False` and changes nothing when the
new value equals (Python `==`) the current one; otherwise stores it,
recomputes the modified flag against the original value, stamps or clears
the modification time, and clears the validation buckets. -/
def FieldState.set_value (s : FieldState) (new_value : PyValue) (now : Nat) :
    Bool × FieldState :=
  if pyEq new_value s.current_value then (false, s)
  else
    let m := pyNe new_value s.original_value
    (true,
     { s with
       current_value := new_value, is_modified := m,
       modification_time := if m then some now else Option.none,
       validation_errors := [], validation_warnings := [],
       validation_state := ValidationState.valid })

/-- `FieldState.revert`. -/
def FieldState.revert (s : FieldState) : Bool × FieldState :=
  if !s.is_modified then (false, s)
  else
    (true,
     { s with
       current_value := s.original_value, is_modified := false,
       modification_time := Option.none, validation_errors := [],
       validation_warnings := [], validation_state := ValidationState.valid })

/-- `FieldState.apply_changes`: promote the current value to be the new
original value and clear the modified flag. -/
def FieldState.promote (s : FieldState) : FieldState :=
  { s with
    original_value := s.current_value, is_modified := false,
    modification_time := Option.none }

/-- The mutable state of `ConfigurationModel` (configs, per-field states,
modified set, file paths); observers and logging carry no model state and
are omitted. -/
structure ModelState where
  json_config : Option ConfigData
  ini_config : Option ConfigData
  field_states : List (String × FieldState)
  modified_fields : List String
  json_file_path : Option String
  ini_file_path : Option String

/-- The empty model produced by `ConfigurationModel.__init__`. -/
def ModelState.init : ModelState :=
  { json_config := Option.none, ini_config := Option.none, field_states := [],
    modified_fields := [], json_file_path := Option.none,
    ini_file_path := Option.none }

/-- `ConfigurationModel._initialize_field_states`: clear all states, then
create one fresh `FieldState` per JSON field and one per INI field under
the `ini.`-prefixed path. -/
def initializeFieldStates (m : ModelState) : ModelState :=
  let jsonStates :=
    match m.json_config with
    | some cfg => cfg.fields.map (fun pf => (pf.1, FieldState.init pf.2.value))
    | Option.none => []
  let iniStates :=
    match m.ini_config with
    | some cfg => cfg.fields.map (fun pf => ("ini." ++ pf.1, FieldState.init pf.2.value))
    | Option.none => []
  { m with field_states := jsonStates ++ iniStates, modified_fields := [] }

/-- `ConfigurationModel.load_configuration`, with the two `parse_file`
outcomes as parameters (`Option.none` models the parser raising).  The
JSON config is installed as soon as its parse succeeds — before the INI
parse is attempted — and the field states are rebuilt only when both
parses succeed; any failure is caught and reported as `false`. -/
def loadConfiguration (jsonResult iniResult : Option ConfigData)
    (jsonPath iniPath : String) (m : ModelState) : Bool × ModelState :=
  match jsonResult with
  | Option.none => (false, m)
  | some jc =>
    let m1 := { m with json_config := some jc, json_file_path := some jsonPath }
    match iniResult with
    | Option.none => (false, m1)
    | some ic =>
      let m2 := { m1 with ini_config := some ic, ini_file_path := some iniPath }
      (true, initializeFieldStates m2)

/-- `ConfigurationModel.get_field_value`. -/
def getFieldValue (m : ModelState) (field_path : String) : Option PyValue :=
  match alLookup m.field_states field_path with
  | some st => some st.current_value
  | Option.none => Option.none

/-- `ConfigurationModel._convert_value_to_type`: coerce an input (typically
a string from a text control) to the type of the field's original value —
booleans by truthiness, integers by float-parse-then-truncate with `0` on
failure, floats by float-parse with `0.0` on failure, everything else
stringified (`None` becomes `""`). -/
def convertValueToType (value : PyValue) (original_value : PyValue) : PyValue :=
  match original_value with
  | .bool _ => .bool (pyTruthy value)
  | .int _ =>
    .int (match value with
      | .str s =>
        if pyStrip s == "" then 0
        else
          match pyFloatParse s with
          | some q => intTrunc q
          | Option.none => 0
      | .int n => n
      | .float q => intTrunc q
      | .bool b => if b then 1 else 0
      | _ => 0)
  | .float _ =>
    .float (match value with
      | .str s =>
        if pyStrip s == "" then 0
        else
          match pyFloatParse s with
          | some q => q
          | Option.none => 0
      | .int n => (n : ℚ)
      | .float q => q
      | .bool b => if b then 1 else 0
      | _ => 0)
  | _ =>
    match value with
    | .none => .str ""
    | _ => .str (pyStr value)

/-- `ConfigurationModel._update_config_data`: push the new value into the
backing `ConfigData` (stripping the `ini.` namespace prefix), mutating the
`FieldInfo.value` in place; `original_value` is untouched. -/
def updateConfigData (m : ModelState) (field_path : String) (value : PyValue) :
    ModelState :=
  if pyStartsWith field_path "ini." then
    let actual := String.mk (field_path.data.drop 4)
    match m.ini_config with
    | some cfg =>
      { m with
        ini_config := some
          { cfg with
            fields := alAdjust cfg.fields actual (fun fi => { fi with value := value }) } }
    | Option.none => m
  else
    match m.json_config with
    | some cfg =>
      { m with
        json_config := some
          { cfg with
            fields := alAdjust cfg.fields field_path (fun fi => { fi with value := value }) } }
    | Option.none => m

/-- Add a path to the modified set (Python `set.add`). -/
def addModified (l : List String) (p : String) : List String :=
  if l.contains p then l else l ++ [p]

/-- Remove a path from the modified set (Python `set.discard`). -/
def discardModified (l : List String) (p : String) : List String :=
  l.filter (fun q => !(q == p))

/-- `ConfigurationModel.set_field_value`: unknown paths return `False`;
otherwise the input is coerced to the original value's type, stored via
`FieldState.set_value`, the modified set and the backing `ConfigData` are
updated when the value actually changed. -/
def setFieldValue (m : ModelState) (field_path : String) (value : PyValue)
    (now : Nat) : Bool × ModelState :=
  match alLookup m.field_states field_path with
  | Option.none => (false, m)
  | some st =>
    let converted := convertValueToType value st.original_value
    let r := st.set_value converted now
    if r.1 then
      let mf :=
        if r.2.is_modified then addModified m.modified_fields field_path
        else discardModified m.modified_fields field_path
      let m1 :=
        { m with
          field_states := alUpdate m.field_states field_path r.2,
          modified_fields := mf }
      (true, updateConfigData m1 field_path converted)
    else (false, { m with field_states := alUpdate m.field_states field_path r.2 })

/-- `ConfigurationModel.revert_field`. -/
def revertField (m : ModelState) (field_path : String) : Bool × ModelState :=
  match alLookup m.field_states field_path with
  | Option.none => (false, m)
  | some st =>
    let r := st.revert
    if r.1 then
      let m1 :=
        { m with
          field_states := alUpdate m.field_states field_path r.2,
          modified_fields := discardModified m.modified_fields field_path }
      (true, updateConfigData m1 field_path r.2.current_value)
    else (false, { m with field_states := alUpdate m.field_states field_path r.2 })

/-- Which writers `apply_changes` invokes, in order. -/
inductive WriteKind where
  | json
  | ini
deriving DecidableEq

/-- `ConfigurationModel.apply_changes`, with the boolean results of the two
`write_preserving_structure` calls (their file I/O outcome) as parameters.
Returns the `(success, error message)` pair, the resulting model state and
the ordered trace of writers that were actually invoked.  A `False` from
the JSON writer returns immediately — before the INI writer is attempted —
and only after both writes succeed is every modified field's state
promoted and the modified set cleared. -/
def applyChanges (m : ModelState) (jsonWriteOk iniWriteOk : Bool) :
    (Bool × Option String) × ModelState × List WriteKind :=
  let doJson := m.json_config.isSome && m.json_file_path.isSome
  if doJson && !jsonWriteOk then
    ((false, some "Failed to write JSON configuration"), m, [WriteKind.json])
  else
    let t1 := if doJson then [WriteKind.json] else []
    let doIni := m.ini_config.isSome && m.ini_file_path.isSome
    if doIni && !iniWriteOk then
      ((false, some "Failed to write INI configuration"), m, t1 ++ [WriteKind.ini])
    else
      let t2 := t1 ++ (if doIni then [WriteKind.ini] else [])
      let promoted := m.field_states.map (fun ps =>
        if m.modified_fields.contains ps.1 then (ps.1, ps.2.promote) else ps)
      ((true, Option.none),
       { m with field_states := promoted, modified_fields := [] }, t2)

/-- `ConfigurationModel.is_field_modified`. -/
def isFieldModified (m : ModelState) (field_path : String) : Bool :=
  match alLookup m.field_states field_path with
  | some st => st.is_modified
  | Option.none => false

/-- The absolute tolerance `1e-10` used by the comparison engine. -/
def tol : ℚ := mkRat 1 10000000000

mutual

/-- `ComparisonEngine._values_equal`: `None` handling first; then the
`isinstance(_, (int, float))` branch — which booleans also enter, since
Python's `bool` subclasses `int` — comparing with the `1e-10` tolerance
when either side is a float and with plain `==` otherwise; trimmed string
comparison; elementwise list/tuple comparison (length first); and plain
Python `==` as the default for every remaining combination. -/
def valuesEqual : PyValue → PyValue → Bool
  | .none, .none => true
  | .none, _ => false
  | _, .none => false
  | .bool a, .bool b => pyEq (.bool a) (.bool b)
  | .bool a, .int n => pyEq (.bool a) (.int n)
  | .int m, .bool b => pyEq (.int m) (.bool b)
  | .int m, .int n => pyEq (.int m) (.int n)
  | .bool a, .float q => decide (|(if a then (1 : ℚ) else 0) - q| < tol)
  | .float p, .bool b => decide (|p - (if b then (1 : ℚ) else 0)| < tol)
  | .int m, .float q => decide (|(m : ℚ) - q| < tol)
  | .float p, .int n => decide (|p - (n : ℚ)| < tol)
  | .float p, .float q => decide (|p - q| < tol)
  | .str s, .str t => pyStrip s == pyStrip t
  | .list xs, .list ys => (xs.length == ys.length) && valuesEqualAll xs ys
  | .list xs, .tuple ys => (xs.length == ys.length) && valuesEqualAll xs ys
  | .tuple xs, .list ys => (xs.length == ys.length) && valuesEqualAll xs ys
  | .tuple xs, .tuple ys => (xs.length == ys.length) && valuesEqualAll xs ys
  | v1, v2 => pyEq v1 v2

/-- `all(_values_equal(v1, v2) for v1, v2 in zip(...))`: pairwise recursive
comparison, stopping at the shorter sequence (the caller checks lengths). -/
def valuesEqualAll : List PyValue → List PyValue → Bool
  | x :: xs, y :: ys => valuesEqual x y && valuesEqualAll xs ys
  | _, _ => true

end

mutual

/-- Modelled from the spec: the equality rule exactly as the claim states
it, with booleans a category of their own (distinct from "numeric vs
numeric"): `None` handling; int/float pairs within absolute tolerance
`1e-10` after casting to float; trimmed string comparison; exact
boolean-vs-boolean comparison; pairwise list/tuple comparison; and direct
equality for every other combination.  Written for comparison with the
implementation's `valuesEqual`. -/
def specValuesEqual : PyValue → PyValue → Bool
  | .none, .none => true
  | .none, _ => false
  | _, .none => false
  | .int m, .int n => decide (|(m : ℚ) - (n : ℚ)| < tol)
  | .int m, .float q => decide (|(m : ℚ) - q| < tol)
  | .float p, .int n => decide (|p - (n : ℚ)| < tol)
  | .float p, .float q => decide (|p - q| < tol)
  | .str s, .str t => pyStrip s == pyStrip t
  | .bool a, .bool b => a == b
  | .list xs, .list ys => (xs.length == ys.length) && specValuesEqualAll xs ys
  | .list xs, .tuple ys => (xs.length == ys.length) && specValuesEqualAll xs ys
  | .tuple xs, .list ys => (xs.length == ys.length) && specValuesEqualAll xs ys
  | .tuple xs, .tuple ys => (xs.length == ys.length) && specValuesEqualAll xs ys
  | v1, v2 => pyEq v1 v2

/-- Pairwise companion of `specValuesEqual`. -/
def specValuesEqualAll : List PyValue → List PyValue → Bool
  | x :: xs, y :: ys => specValuesEqual x y && specValuesEqualAll xs ys
  | _, _ => true

end

/-- The document has a top-level entry with the given key whose value is
an object. -/
def hasObjEntry (entries : List (String × JsonVal)) (c : String) : Bool :=
  entries.any (fun kv =>
    kv.1 == c && (match kv.2 with | .obj _ => true | .leaf _ => false))

/-- `isinstance(v, (int, float))` — booleans included, as in Python. -/
def isNumV : PyValue → Bool
  | .bool _ => true
  | .int _ => true
  | .float _ => true
  | _ => false

/-- `isinstance(v, float)`. -/
def isFloatV : PyValue → Bool
  | .float _ => true
  | _ => false

/-- `isinstance(v, str)`. -/
def isStrV : PyValue → Bool
  | .str _ => true
  | _ => false

/-- `isinstance(v, (list, tuple))`. -/
def isSeqV : PyValue → Bool
  | .list _ => true
  | .tuple _ => true
  | _ => false

mutual

/-- Python `==` is reflexive on embedded values. -/
theorem pyEq_refl : ∀ v : PyValue, pyEq v v = true
  | .none => rfl
  | .bool b => by simp [pyEq]
  | .int n => by simp [pyEq]
  | .float q => by simp [pyEq]
  | .str s => by simp [pyEq]
  | .list xs => by simp only [pyEq]; exact pyEqList_refl xs
  | .tuple xs => by simp only [pyEq]; exact pyEqList_refl xs

/-- Reflexivity of elementwise `==`. -/
theorem pyEqList_refl : ∀ xs : List PyValue, pyEqList xs xs = true
  | [] => rfl
  | x :: xs => by
    simp only [pyEqList, Bool.and_eq_true]
    exact ⟨pyEq_refl x, pyEqList_refl xs⟩

end

/-- Python `!=` is irreflexive. -/
theorem pyNe_self (v : PyValue) : pyNe v v = false := by
  simp [pyNe, pyEq_refl]

/-- A successful `jsonFindField` lookup returns a field of the table. -/
theorem jsonFindField_mem {fields : List (String × FieldInfo)} {name : String}
    {fi : FieldInfo} (h : jsonFindField fields name = some fi) :
    ∃ p, (p, fi) ∈ fields := by
  unfold jsonFindField at h
  cases hff : fields.find? (fun pf => pyEndsWith pf.1 name || pf.1 == name) with
  | none => rw [hff] at h; exact absurd h (by simp)
  | some pf =>
    rw [hff] at h
    cases h
    exact ⟨pf.1, List.mem_of_find?_eq_some hff⟩

/-- A successful JSON-writer lookup returns a field of the table. -/
theorem jsonResolveField_mem {fields : List (String × FieldInfo)} {line : String}
    {r : (List Char × List Char) × FieldInfo}
    (h : jsonResolveField fields line = some r) : ∃ p, (p, r.2) ∈ fields := by
  unfold jsonResolveField at h
  cases hs : jsonFieldSearch line.data with
  | none => rw [hs] at h; exact absurd h (by simp)
  | some m =>
    rw [hs] at h
    dsimp only at h
    cases hf : jsonFindField fields (String.mk m.1) with
    | none => rw [hf] at h; exact absurd h (by simp)
    | some fi =>
      rw [hf] at h
      cases h
      exact jsonFindField_mem hf

/-- A successful `iniFindField` lookup returns a field of the table. -/
theorem iniFindField_mem {fields : List (String × FieldInfo)} {key : String}
    {fi : FieldInfo} (h : iniFindField fields key = some fi) :
    ∃ p, (p, fi) ∈ fields := by
  unfold iniFindField at h
  cases hff : fields.find? (fun pf => pyEndsWith pf.1 ("." ++ key)) with
  | none => rw [hff] at h; exact absurd h (by simp)
  | some pf =>
    rw [hff] at h
    cases h
    exact ⟨pf.1, List.mem_of_find?_eq_some hff⟩

/-- A successful INI-writer lookup returns a field of the table. -/
theorem iniResolveField_mem {fields : List (String × FieldInfo)} {line : String}
    {kf : String × FieldInfo}
    (h : iniResolveField fields line = some kf) : ∃ p, (p, kf.2) ∈ fields := by
  unfold iniResolveField at h
  simp only at h
  split at h
  · exact absurd h (by simp)
  · split at h
    · cases hk : iniKeyOfLine (pyStrip line) with
      | none => rw [hk] at h; exact absurd h (by simp)
      | some key =>
        rw [hk] at h
        dsimp only at h
        cases hf : iniFindField fields key with
        | none => rw [hf] at h; exact absurd h (by simp)
        | some fi =>
          rw [hf] at h
          cases h
          exact iniFindField_mem hf
    · exact absurd h (by simp)

/-- A line whose JSON-writer lookup finds no dirty field is echoed
verbatim. -/
theorem jsonPatchLine_of_clean {fields : List (String × FieldInfo)} {line : String}
    (h : ∀ r, jsonResolveField fields line = some r →
      pyEq r.2.value r.2.original_value = true) :
    jsonPatchLine fields line = line := by
  unfold jsonPatchLine
  cases hr : jsonResolveField fields line with
  | none => rfl
  | some r =>
    have hc := h r hr
    simp [pyNe, hc]

/-- A line whose INI-writer lookup finds no dirty field is echoed
verbatim. -/
theorem iniPatchLine_of_clean {fields : List (String × FieldInfo)} {line : String}
    (h : ∀ kf, iniResolveField fields line = some kf →
      pyEq kf.2.value kf.2.original_value = true) :
    iniPatchLine fields line = line := by
  unfold iniPatchLine
  cases hr : iniResolveField fields line with
  | none => rfl
  | some kf =>
    have hc := h kf hr
    simp [pyNe, hc]

mutual

/-- Every field produced by the JSON flattening has
`original_value = value` (the `FieldInfo` constructor copies it). -/
theorem buildFieldHierarchy_clean (descs : List (String × String)) :
    ∀ (entries : List (String × JsonVal)) (pp : String)
      (pf : String × FieldInfo), pf ∈ buildFieldHierarchy descs entries pp →
      pf.2.original_value = pf.2.value
  | [], _, pf, h => absurd h (List.not_mem_nil pf)
  | (key, v) :: rest, pp, pf, h => by
    simp only [buildFieldHierarchy] at h
    rcases List.mem_append.mp h with h1 | h2
    · exact buildFieldEntry_clean descs key v pp pf h1
    · exact buildFieldHierarchy_clean descs rest pp pf h2

/-- Companion of `buildFieldHierarchy_clean` for a single entry. -/
theorem buildFieldEntry_clean (descs : List (String × String)) (key : String) :
    ∀ (v : JsonVal) (pp : String) (pf : String × FieldInfo),
      pf ∈ buildFieldEntry descs key v pp → pf.2.original_value = pf.2.value
  | .obj sub, pp, pf, h => by
    simp only [buildFieldEntry, List.mem_map] at h
    obtain ⟨qf, hq, rfl⟩ := h
    exact buildFieldHierarchy_clean descs sub _ qf hq
  | .leaf w, pp, pf, h => by
    simp only [buildFieldEntry, List.mem_singleton] at h
    subst h
    rfl

end

/-- Every field produced by the INI parser has `original_value = value`. -/
theorem buildFieldInfoIni_clean
    (data : List (String × List (String × IniRecord)))
    (pf : String × FieldInfo) (h : pf ∈ buildFieldInfoIni data) :
    pf.2.original_value = pf.2.value := by
  unfold buildFieldInfoIni at h
  simp only [List.mem_flatten, List.mem_map] at h
  obtain ⟨l, ⟨se, hse, rfl⟩, hpf⟩ := h
  simp only [List.mem_map] at hpf
  obtain ⟨kv, hkv, rfl⟩ := hpf
  rfl

/-- The JSON writer echoes every line when all fields are clean. -/
theorem jsonWrite_id_of_clean (cfg : ConfigData)
    (h : ∀ pf ∈ cfg.fields, pf.2.original_value = pf.2.value) :
    jsonWritePreservingStructure cfg = cfg.raw_lines := by
  unfold jsonWritePreservingStructure
  have hl : ∀ l ∈ cfg.raw_lines, jsonPatchLine cfg.fields l = id l := by
    intro l _
    refine jsonPatchLine_of_clean (fun r hr => ?_)
    obtain ⟨p, hp⟩ := jsonResolveField_mem hr
    rw [h (p, r.2) hp]
    exact pyEq_refl _
  rw [List.map_congr_left hl, List.map_id]

/-- The INI writer echoes every line when all fields are clean. -/
theorem iniWrite_id_of_clean (cfg : ConfigData)
    (h : ∀ pf ∈ cfg.fields, pf.2.original_value = pf.2.value) :
    iniWritePreservingStructure cfg = cfg.raw_lines := by
  unfold iniWritePreservingStructure
  have hl : ∀ l ∈ cfg.raw_lines, iniPatchLine cfg.fields l = id l := by
    intro l _
    refine iniPatchLine_of_clean (fun kf hkf => ?_)
    obtain ⟨p, hp⟩ := iniResolveField_mem hkf
    rw [h (p, kf.2) hp]
    exact pyEq_refl _
  rw [List.map_congr_left hl, List.map_id]

/-- Looking up the key just stored by `alUpdate` yields the stored value. -/
theorem alLookup_alUpdate_self {α : Type} (l : List (String × α)) (k : String) (v : α) :
    alLookup (alUpdate l k v) k = some v := by
  induction l with
  | nil => simp [alUpdate, alLookup, List.find?]
  | cons p rest ih =>
    by_cases hp : (p.1 == k) = true
    · simp [alUpdate, hp, alLookup, List.find?]
    · simp only [alUpdate, hp, Bool.false_eq_true, if_false]
      simp only [alLookup, List.find?, hp] at ih ⊢
      exact ih

/-- Promoting the modified entries of a state table promotes exactly the
looked-up state of a modified path. -/
theorem alLookup_promote (l : List (String × FieldState)) (mf : List String)
    (p : String) (st : FieldState) (hc : mf.contains p = true)
    (hl : alLookup l p = some st) :
    alLookup (l.map (fun ps => if mf.contains ps.1 then (ps.1, ps.2.promote) else ps)) p =
      some st.promote := by
  induction l with
  | nil => simp [alLookup, List.find?] at hl
  | cons q rest ih =>
    by_cases hq : (q.1 == p) = true
    · have hqe : q.1 = p := by simpa using hq
      simp only [alLookup, List.find?, hq] at hl
      cases hl
      simp only [List.map]
      rw [hqe, hc]
      simp [alLookup, List.find?, hq, hqe]
    · simp only [alLookup, List.find?, hq] at hl
      simp only [List.map, alLookup, List.find?]
      have hkey : (if mf.contains q.1 then (q.1, q.2.promote) else q).1 = q.1 := by
        split <;> rfl
      have hqf : (q.1 == p) = false := by simpa using hq
      rw [hkey, hqf]
      simpa [alLookup] using ih hl

/-- `_update_config_data` only touches the `ConfigData`s, never the field
states. -/
theorem updateConfigData_field_states (m : ModelState) (p : String) (v : PyValue) :
    (updateConfigData m p v).field_states = m.field_states := by
  unfold updateConfigData
  split
  · cases m.ini_config <;> rfl
  · cases m.json_config <;> rfl

/-- `_update_config_data` never touches the modified set. -/
theorem updateConfigData_modified_fields (m : ModelState) (p : String) (v : PyValue) :
    (updateConfigData m p v).modified_fields = m.modified_fields := by
  unfold updateConfigData
  split
  · cases m.ini_config <;> rfl
  · cases m.json_config <;> rfl

/-- String concatenation is associative. -/
theorem strAppend_assoc (a b c : String) : a ++ b ++ c = a ++ (b ++ c) := by
  cases a with
  | mk l1 =>
    cases b with
    | mk l2 =>
      cases c with
      | mk l3 => exact congrArg String.mk (List.append_assoc l1 l2 l3)

/-- A dotted concatenation is never the empty string. -/
theorem strAppend_dot_ne (a b : String) : a ++ "." ++ b ≠ "" := by
  intro hcontra
  have h1 : (a ++ "." ++ b).data = ("" : String).data := congrArg String.data hcontra
  have h2 : a.data ++ ['.'] ++ b.data = ([] : List Char) := h1
  simp at h2

mutual

/-- With a non-empty parent path, every field that the flattening produces
sits strictly below that path. -/
theorem buildFieldHierarchy_path (descs : List (String × String)) :
    ∀ (entries : List (String × JsonVal)) (pp : String)
      (pf : String × FieldInfo), pp ≠ "" →
      pf ∈ buildFieldHierarchy descs entries pp → ∃ s, pf.1 = pp ++ "." ++ s
  | [], _, pf, _, h => absurd h (List.not_mem_nil pf)
  | (key, v) :: rest, pp, pf, hpp, h => by
    simp only [buildFieldHierarchy] at h
    rcases List.mem_append.mp h with h1 | h2
    · exact buildFieldEntry_path descs key v pp pf hpp h1
    · exact buildFieldHierarchy_path descs rest pp pf hpp h2

/-- Companion of `buildFieldHierarchy_path` for a single entry. -/
theorem buildFieldEntry_path (descs : List (String × String)) (key : String) :
    ∀ (v : JsonVal) (pp : String) (pf : String × FieldInfo), pp ≠ "" →
      pf ∈ buildFieldEntry descs key v pp → ∃ s, pf.1 = pp ++ "." ++ s
  | .obj sub, pp, pf, hpp, h => by
    simp only [buildFieldEntry, List.mem_map] at h
    obtain ⟨qf, hq, rfl⟩ := h
    have hcp : (if pp == "" then key else pp ++ "." ++ key) = pp ++ "." ++ key := by
      simp [hpp]
    rw [hcp] at hq
    obtain ⟨s0, hs0⟩ :=
      buildFieldHierarchy_path descs sub (pp ++ "." ++ key) qf
        (strAppend_dot_ne pp key) hq
    refine ⟨key ++ "." ++ s0, ?_⟩
    rw [hs0]
    simp [strAppend_assoc]
  | .leaf w, pp, pf, hpp, h => by
    simp only [buildFieldEntry, List.mem_singleton] at h
    subst h
    exact ⟨key, by simp [hpp]⟩

end

/-- C1: Round-trip idempotence.  Parsing a file and writing it back with no
field value changed (every field still has `value = original_value`, which
is how both parsers construct their `FieldInfo`s) reproduces the original
lines byte-for-byte: the JSON writer echoes any raw lines when its field
table comes from `buildFieldHierarchy`, and the INI writer echoes the
parsed file's own lines whenever `iniParseConfig` succeeds. -/
theorem c1_round_trip_idempotence :
    (∀ (descs : List (String × String)) (entries : List (String × JsonVal))
       (pp : String) (lines : List String),
       jsonWritePreservingStructure
         { fields := buildFieldHierarchy descs entries pp, raw_lines := lines } = lines)
  ∧ (∀ (lines : List String) (cfg : ConfigData),
       iniParseConfig lines = Except.ok cfg →
       iniWritePreservingStructure cfg = lines) := by
  constructor
  · intro descs entries pp lines
    exact jsonWrite_id_of_clean _
      (fun pf hpf => buildFieldHierarchy_clean descs entries pp pf hpf)
  · intro lines cfg h
    unfold iniParseConfig at h
    cases hp : parseWithComments lines with
    | error e => rw [hp] at h; exact absurd h (by simp [Except.map])
    | ok d =>
      rw [hp] at h
      simp only [Except.map] at h
      cases h
      exact iniWrite_id_of_clean _ (fun pf hpf => buildFieldInfoIni_clean d pf hpf)

/-- Witness for C1 at a concrete two-line INI file. -/
theorem c1_round_trip_idempotence_witness :
    iniWritePreservingStructure
      ((iniParseConfig ["[A]\n", "x=5\n"]).toOption.getD {}) = ["[A]\n", "x=5\n"] :=
  c1_round_trip_idempotence.2 ["[A]\n", "x=5\n"] _ rfl

/-- C2 fails on the code: both writers look fields up by bare trailing key
name, so two sections sharing a key collide.  In the INI file
`[A] x=5 / [B] x=5`, setting only `A.x` to `7` rewrites *both* `x=` lines
(`B.x` itself still clean); in the JSON document
`{"A": {"Q": 1}, "B": {"Q": 1}}`, setting only `A.Q` to `2` rewrites both
`"Q":` lines (and, the matched value text being `1\n`, even eats the
newline). -/
theorem c2_selective_patch_counterexample :
    (iniWritePreservingStructure
      { fields := alAdjust ((iniParseFields ["[A]\n", "x=5\n", "[B]\n", "x=5\n"]).toOption.getD [])
          "A.x" (fun fi => { fi with value := PyValue.int 7 }),
        raw_lines := ["[A]\n", "x=5\n", "[B]\n", "x=5\n"] } =
      ["[A]\n", "x=7\n", "[B]\n", "x=7\n"])
  ∧ ((alLookup ((iniParseFields ["[A]\n", "x=5\n", "[B]\n", "x=5\n"]).toOption.getD []) "B.x").map
      (fun fi => fi.value) = some (PyValue.int 5))
  ∧ (["[A]\n", "x=7\n", "[B]\n", "x=7\n"].getD 3 "" ≠
      ["[A]\n", "x=5\n", "[B]\n", "x=5\n"].getD 3 "")
  ∧ (jsonWritePreservingStructure
      { fields := alAdjust
          (buildFieldHierarchy []
            [("A", .obj [("Q", .leaf (.int 1))]), ("B", .obj [("Q", .leaf (.int 1))])] "")
          "A.Q" (fun fi => { fi with value := PyValue.int 2 }),
        raw_lines := ["\x7b\n", "\"A\": \x7b\n", "\"Q\": 1\n", "\x7d,\n",
                      "\"B\": \x7b\n", "\"Q\": 1\n", "\x7d\n", "\x7d\n"] } =
      ["\x7b\n", "\"A\": \x7b\n", "\"Q\": 2", "\x7d,\n",
       "\"B\": \x7b\n", "\"Q\": 2", "\x7d\n", "\x7d\n"]) := by
  refine ⟨rfl, rfl, ?_, rfl⟩
  decide

/-- C2 amended: the frame part that does hold.  A raw line is echoed
byte-for-byte whenever the writer's bare-key lookup for that line does not
resolve to a dirty field; only lines whose extracted key resolves (by
first-match path-suffix comparison) to a dirty field can change — even
when those lines belong to a different field that merely shares the
trailing key name. -/
theorem c2_selective_patch_amended :
    (∀ (fields : List (String × FieldInfo)) (line : String),
        (∀ r, jsonResolveField fields line = some r →
          pyEq r.2.value r.2.original_value = true) →
        jsonPatchLine fields line = line)
  ∧ (∀ (fields : List (String × FieldInfo)) (line : String),
        (∀ kf, iniResolveField fields line = some kf →
          pyEq kf.2.value kf.2.original_value = true) →
        iniPatchLine fields line = line) :=
  ⟨fun _ _ h => jsonPatchLine_of_clean h, fun _ _ h => iniPatchLine_of_clean h⟩

/-- Witness for the amended C2 on concrete lines (empty field table, so
the lookup hypothesis holds vacuously). -/
theorem c2_selective_patch_amended_witness :
    jsonPatchLine [] "\"Q\": 1\n" = "\"Q\": 1\n" ∧ iniPatchLine [] "x=5\n" = "x=5\n" :=
  ⟨c2_selective_patch_amended.1 [] "\"Q\": 1\n" (fun _ hr => nomatch hr),
   c2_selective_patch_amended.2 [] "x=5\n" (fun _ hkf => nomatch hkf)⟩

/-- C3: `apply_changes` ordering and failure atomicity.  With both configs
and paths present: a failed JSON write returns the JSON error having
attempted only the JSON writer, with the model state exactly as before; a
failed INI write returns the INI error after the trace JSON-then-INI, state
again untouched; and on success the trace is JSON strictly before INI, the
modified set is emptied and exactly the previously modified field states
are promoted (current becomes original, modified flag cleared). -/
theorem c3_apply_changes_order :
    ∀ (m : ModelState) (iniOk : Bool),
      m.json_config.isSome = true → m.json_file_path.isSome = true →
      m.ini_config.isSome = true → m.ini_file_path.isSome = true →
      (applyChanges m false iniOk =
        ((false, some "Failed to write JSON configuration"), m, [WriteKind.json]))
    ∧ (applyChanges m true false =
        ((false, some "Failed to write INI configuration"), m,
          [WriteKind.json, WriteKind.ini]))
    ∧ ((applyChanges m true true).2.2 = [WriteKind.json, WriteKind.ini]
       ∧ (applyChanges m true true).1 = (true, Option.none)
       ∧ (applyChanges m true true).2.1.modified_fields = []
       ∧ ∀ (p : String) (st : FieldState),
           m.modified_fields.contains p = true →
           alLookup m.field_states p = some st →
           alLookup (applyChanges m true true).2.1.field_states p =
             some st.promote) := by
  intro m iniOk h1 h2 h3 h4
  have hdj : (m.json_config.isSome && m.json_file_path.isSome) = true := by
    simp [h1, h2]
  have hdi : (m.ini_config.isSome && m.ini_file_path.isSome) = true := by
    simp [h3, h4]
  have happ : applyChanges m true true =
      ((true, Option.none),
       { m with
         field_states := m.field_states.map (fun ps =>
           if m.modified_fields.contains ps.1 then (ps.1, ps.2.promote) else ps),
         modified_fields := [] },
       [WriteKind.json, WriteKind.ini]) := by
    simp [applyChanges, hdj, hdi]
  refine ⟨by simp [applyChanges, hdj, hdi], by simp [applyChanges, hdj, hdi],
    by rw [happ], by rw [happ], by rw [happ], ?_⟩
  intro p st hc hl
  rw [happ]
  exact alLookup_promote m.field_states m.modified_fields p st hc hl

/-- Witness for C3: a concrete model with both configs, on which the
failed-JSON-write branch aborts before the INI write with the state
untouched. -/
theorem c3_apply_changes_order_witness :
    applyChanges
      { json_config := some {}, ini_config := some {}, field_states := [],
        modified_fields := [], json_file_path := some "settings.json",
        ini_file_path := some "Config_DX11.ini" } false true =
      ((false, some "Failed to write JSON configuration"),
       { json_config := some {}, ini_config := some {}, field_states := [],
         modified_fields := [], json_file_path := some "settings.json",
         ini_file_path := some "Config_DX11.ini" }, [WriteKind.json]) :=
  (c3_apply_changes_order _ true (by rfl) (by rfl) (by rfl) (by rfl)).1

/-- C4 fails on the code: a successful `apply_changes` promotes only the
`FieldState`s — `FieldInfo.original_value` in the backing `ConfigData`
keeps its parse-time value, so the *writers'* dirty check still reports the
field dirty and an immediately repeated write-back patches the very same
line again.  Concretely: load `[A] x=5`, set `ini.A.x` to `"7"`, apply
successfully; afterwards the field state is clean, but `A.x` still has
`value = 7` against `original_value = 5`, and a repeat INI write still
turns `x=5` into `x=7`. -/
theorem c4_dirty_after_apply_counterexample :
    (isFieldModified
      ((setFieldValue
        (initializeFieldStates
          { ModelState.init with
            ini_config := some ((iniParseConfig ["[A]\n", "x=5\n"]).toOption.getD {}),
            ini_file_path := some "Config_DX11.ini" })
        "ini.A.x" (.str "7") 0).2) "ini.A.x" = true)
  ∧ ((applyChanges
      ((setFieldValue
        (initializeFieldStates
          { ModelState.init with
            ini_config := some ((iniParseConfig ["[A]\n", "x=5\n"]).toOption.getD {}),
            ini_file_path := some "Config_DX11.ini" })
        "ini.A.x" (.str "7") 0).2) true true).1 = (true, Option.none))
  ∧ (isFieldModified
      ((applyChanges
        ((setFieldValue
          (initializeFieldStates
            { ModelState.init with
              ini_config := some ((iniParseConfig ["[A]\n", "x=5\n"]).toOption.getD {}),
              ini_file_path := some "Config_DX11.ini" })
          "ini.A.x" (.str "7") 0).2) true true).2.1) "ini.A.x" = false)
  ∧ (((applyChanges
      ((setFieldValue
        (initializeFieldStates
          { ModelState.init with
            ini_config := some ((iniParseConfig ["[A]\n", "x=5\n"]).toOption.getD {}),
            ini_file_path := some "Config_DX11.ini" })
        "ini.A.x" (.str "7") 0).2) true true).2.1.ini_config.map
      (fun c => (alLookup c.fields "A.x").map (fun fi => (fi.value, fi.original_value)))) =
      some (some (PyValue.int 7, PyValue.int 5)))
  ∧ (((applyChanges
      ((setFieldValue
        (initializeFieldStates
          { ModelState.init with
            ini_config := some ((iniParseConfig ["[A]\n", "x=5\n"]).toOption.getD {}),
            ini_file_path := some "Config_DX11.ini" })
        "ini.A.x" (.str "7") 0).2) true true).2.1.ini_config.map
      iniWritePreservingStructure) = some ["[A]\n", "x=7\n"])
  ∧ ("x=7\n" ≠ "x=5\n") := by
  refine ⟨rfl, rfl, rfl, rfl, rfl, ?_⟩
  decide

/-- C4 amended: a successful `apply_changes` promotes every previously
modified `FieldState` (current value becomes the new original, the
modified set is emptied), but it never touches either `ConfigData`, so the
writers' own `value != original_value` dirtiness is left exactly as it
was. -/
theorem c4_apply_promotes_states_not_configs :
    ∀ (m : ModelState),
      ((applyChanges m true true).1 = (true, Option.none))
    ∧ ((applyChanges m true true).2.1.json_config = m.json_config)
    ∧ ((applyChanges m true true).2.1.ini_config = m.ini_config)
    ∧ ((applyChanges m true true).2.1.modified_fields = [])
    ∧ (∀ (p : String) (st : FieldState),
        m.modified_fields.contains p = true →
        alLookup m.field_states p = some st →
        alLookup (applyChanges m true true).2.1.field_states p = some st.promote) := by
  intro m
  have happ : applyChanges m true true =
      ((true, Option.none),
       { m with
         field_states := m.field_states.map (fun ps =>
           if m.modified_fields.contains ps.1 then (ps.1, ps.2.promote) else ps),
         modified_fields := [] },
       (if m.json_config.isSome && m.json_file_path.isSome then [WriteKind.json] else []) ++
         (if m.ini_config.isSome && m.ini_file_path.isSome then [WriteKind.ini] else [])) := by
    simp [applyChanges]
  refine ⟨by rw [happ], by rw [happ], by rw [happ], by rw [happ], ?_⟩
  intro p st hc hl
  rw [happ]
  exact alLookup_promote m.field_states m.modified_fields p st hc hl

/-- Witness for the amended C4 at a concrete model: the lone modified
field's state is promoted by a successful apply. -/
theorem c4_apply_promotes_states_not_configs_witness :
    alLookup
      ((applyChanges
        { json_config := Option.none, ini_config := Option.none,
          field_states := [("b",
            { original_value := PyValue.int 1,
              current_value := PyValue.int 2, is_modified := true,
              modification_time := some 3, validation_errors := [],
              validation_warnings := [], validation_state := ValidationState.valid })],
          modified_fields := ["b"], json_file_path := Option.none,
          ini_file_path := Option.none } true true).2.1.field_states) "b" =
      some ({ original_value := PyValue.int 1,
              current_value := PyValue.int 2,
              is_modified := true, modification_time := some 3,
              validation_errors := [], validation_warnings := [],
              validation_state := ValidationState.valid } :
          FieldState).promote :=
  (c4_apply_promotes_states_not_configs _).2.2.2.2 "b" _ rfl rfl

/-- C5 fails on the code: `load_configuration` installs the freshly parsed
JSON config before attempting the INI parse.  Starting from a fully loaded
model, a call in which the JSON parse succeeds (with a new document
carrying field `b`) and the INI parse fails returns failure but leaves the
model mixed: the new `json_config` is installed while `ini_config` and the
`field_states` (still keyed by the old field `a`) are the old ones. -/
theorem c5_load_counterexample :
    ((loadConfiguration
      (some { fields := [("b", mkFieldInfo "b" (.int 2) "" FieldType.integer "General")] })
      Option.none "j2" "i2"
      (initializeFieldStates
        { ModelState.init with
          json_config := some
            { fields := [("a", mkFieldInfo "a" (.int 1) "" FieldType.integer "General")] },
          ini_config := some
            { fields := [("S.k", mkFieldInfo "S.k" (.int 3) "" FieldType.integer "S")] },
          json_file_path := some "j", ini_file_path := some "i" })).1 = false)
  ∧ (((loadConfiguration
      (some { fields := [("b", mkFieldInfo "b" (.int 2) "" FieldType.integer "General")] })
      Option.none "j2" "i2"
      (initializeFieldStates
        { ModelState.init with
          json_config := some
            { fields := [("a", mkFieldInfo "a" (.int 1) "" FieldType.integer "General")] },
          ini_config := some
            { fields := [("S.k", mkFieldInfo "S.k" (.int 3) "" FieldType.integer "S")] },
          json_file_path := some "j", ini_file_path := some "i" })).2.json_config.map
      (fun c => c.fields.map Prod.fst)) = some ["b"])
  ∧ (((loadConfiguration
      (some { fields := [("b", mkFieldInfo "b" (.int 2) "" FieldType.integer "General")] })
      Option.none "j2" "i2"
      (initializeFieldStates
        { ModelState.init with
          json_config := some
            { fields := [("a", mkFieldInfo "a" (.int 1) "" FieldType.integer "General")] },
          ini_config := some
            { fields := [("S.k", mkFieldInfo "S.k" (.int 3) "" FieldType.integer "S")] },
          json_file_path := some "j", ini_file_path := some "i" })).2.ini_config.map
      (fun c => c.fields.map Prod.fst)) = some ["S.k"])
  ∧ ((loadConfiguration
      (some { fields := [("b", mkFieldInfo "b" (.int 2) "" FieldType.integer "General")] })
      Option.none "j2" "i2"
      (initializeFieldStates
        { ModelState.init with
          json_config := some
            { fields := [("a", mkFieldInfo "a" (.int 1) "" FieldType.integer "General")] },
          ini_config := some
            { fields := [("S.k", mkFieldInfo "S.k" (.int 3) "" FieldType.integer "S")] },
          json_file_path := some "j", ini_file_path := some "i" })).2.field_states.map
      Prod.fst = ["a", "ini.S.k"]) :=
  ⟨rfl, rfl, rfl, rfl⟩

/-- C5 amended: what `load_configuration` actually guarantees.  A JSON
parse failure leaves the model exactly as it was; a JSON success followed
by an INI failure reports failure but has already installed the new
`json_config` and path while `ini_config` and the field states stay from
before the call; only when both parses succeed are the field states
rebuilt from scratch (one per JSON field, one per `ini.`-prefixed INI
field) with the modified set emptied. -/
theorem c5_load_partial_population :
    ∀ (m : ModelState) (iniResult : Option ConfigData) (jp ip : String),
      (loadConfiguration Option.none iniResult jp ip m = (false, m))
    ∧ (∀ jc, (loadConfiguration (some jc) Option.none jp ip m).1 = false
        ∧ (loadConfiguration (some jc) Option.none jp ip m).2.json_config = some jc
        ∧ (loadConfiguration (some jc) Option.none jp ip m).2.ini_config = m.ini_config
        ∧ (loadConfiguration (some jc) Option.none jp ip m).2.field_states =
            m.field_states
        ∧ (loadConfiguration (some jc) Option.none jp ip m).2.modified_fields =
            m.modified_fields)
    ∧ (∀ jc ic, loadConfiguration (some jc) (some ic) jp ip m =
        (true, initializeFieldStates
          { m with
            json_config := some jc, json_file_path := some jp,
            ini_config := some ic, ini_file_path := some ip })) :=
  fun _ _ _ _ =>
    ⟨rfl, fun _ => ⟨rfl, rfl, rfl, rfl, rfl⟩, fun _ _ => rfl⟩

/-- A list is a prefix of itself followed by anything. -/
theorem listIsPre_append (l t : List Char) : listIsPre l (l ++ t) = true := by
  induction l with
  | nil => rfl
  | cons c cs ih => simp [listIsPre, ih]

/-- C6 fails on the code at nesting depth two: in
`{"A": {"B": {"x": 1}}}` the leaf `A.B.x` is tagged with category `"A"`
(its top-level ancestor's key) — the category-overwriting loop runs at
every enclosing level on the way out, so the outermost key wins — whereas
the claim demands the nearest enclosing object's key `"B"`. -/
theorem c6_category_counterexample :
    ((alLookup
      (buildFieldHierarchy []
        [("A", .obj [("B", .obj [("x", .leaf (.int 1))])])] "") "A.B.x").map
      (fun fi => fi.category) = some "A")
  ∧ "A" ≠ "B" := ⟨rfl, by decide⟩

/-- Unfolding `hasObjEntry` along a cons cell. -/
theorem hasObjEntry_cons (kv : String × JsonVal) (l : List (String × JsonVal))
    (c : String) :
    hasObjEntry (kv :: l) c =
      ((kv.1 == c &&
        (match kv.2 with | JsonVal.obj _ => true | JsonVal.leaf _ => false)) ||
       hasObjEntry l c) := rfl

/-- C6 amended: for a document whose top-level keys are non-empty, every
field produced by flattening the document either is a top-level scalar —
in which case its path is the bare key and its category is `"General"` —
or carries as its category the key of the *top-level* object entry it
sits below (its path extends that key), at any nesting depth. -/
theorem c6_category_amended :
    ∀ (descs : List (String × String)) (entries : List (String × JsonVal))
      (p : String) (fi : FieldInfo),
      (∀ kv ∈ entries, kv.1 ≠ "") →
      (p, fi) ∈ buildFieldHierarchy descs entries "" →
      ((p, JsonVal.leaf fi.value) ∈ entries ∧ fi.category = "General") ∨
      (hasObjEntry entries fi.category = true ∧
        pyStartsWith p (fi.category ++ ".") = true) := by
  intro descs entries
  induction entries with
  | nil => intro p fi _ h; exact absurd h (List.not_mem_nil _)
  | cons head rest ih =>
    obtain ⟨key, v⟩ := head
    intro p fi hk h
    simp only [buildFieldHierarchy] at h
    rcases List.mem_append.mp h with h1 | h2
    · cases v with
      | obj sub =>
        simp only [buildFieldEntry, List.mem_map] at h1
        obtain ⟨qf, hq, heq⟩ := h1
        injection heq with hpe hfe
        have hcat : fi.category = key := by rw [← hfe]
        have hkey : key ≠ "" := hk (key, .obj sub) (List.mem_cons_self _ _)
        obtain ⟨s0, hs0⟩ := buildFieldHierarchy_path descs sub key qf hkey hq
        right
        constructor
        · rw [hcat]
          simp [hasObjEntry]
        · rw [← hpe, hs0, hcat]
          show listIsPre (key ++ ".").data ((key ++ "." ++ s0)).data = true
          have hdata : (key ++ "." ++ s0).data = (key ++ ".").data ++ s0.data := rfl
          rw [hdata]
          exact listIsPre_append _ _
      | leaf w =>
        simp only [buildFieldEntry, List.mem_singleton] at h1
        injection h1 with hp1 hf1
        left
        constructor
        · rw [hp1, hf1]
          exact List.mem_cons_self _ _
        · rw [hf1]
          rfl
    · rcases ih p fi (fun kv hkv => hk kv (List.mem_cons_of_mem _ hkv)) h2 with
        ⟨hmem, hcat⟩ | ⟨hobj, hpre⟩
      · exact Or.inl ⟨List.mem_cons_of_mem _ hmem, hcat⟩
      · refine Or.inr ⟨?_, hpre⟩
        rw [hasObjEntry_cons, hobj, Bool.or_true]

/-- Witness for the amended C6: in `{"A": {"B": {"x": 1}}}` the field
`A.B.x` indeed falls in the second disjunct, with category `"A"`. -/
theorem c6_category_amended_witness :
    (("A.B.x",
      JsonVal.leaf ((alLookup (buildFieldHierarchy []
          [("A", .obj [("B", .obj [("x", .leaf (.int 1))])])] "") "A.B.x").getD
          (mkFieldInfo "" PyValue.none "" FieldType.string "")).value) ∈
        [("A", JsonVal.obj [("B", JsonVal.obj [("x", JsonVal.leaf (PyValue.int 1))])])] ∧
      ((alLookup (buildFieldHierarchy []
          [("A", .obj [("B", .obj [("x", .leaf (.int 1))])])] "") "A.B.x").getD
          (mkFieldInfo "" PyValue.none "" FieldType.string "")).category = "General") ∨
    (hasObjEntry
        [("A", JsonVal.obj [("B", JsonVal.obj [("x", JsonVal.leaf (PyValue.int 1))])])]
        ((alLookup (buildFieldHierarchy []
          [("A", .obj [("B", .obj [("x", .leaf (.int 1))])])] "") "A.B.x").getD
          (mkFieldInfo "" PyValue.none "" FieldType.string "")).category = true ∧
      pyStartsWith "A.B.x"
        (((alLookup (buildFieldHierarchy []
          [("A", .obj [("B", .obj [("x", .leaf (.int 1))])])] "") "A.B.x").getD
          (mkFieldInfo "" PyValue.none "" FieldType.string "")).category ++ ".") = true) :=
  c6_category_amended []
    [("A", .obj [("B", .obj [("x", .leaf (.int 1))])])] "A.B.x" _
    (by intro kv hkv; simp only [List.mem_singleton] at hkv; subst hkv; decide)
    (List.mem_singleton.mpr rfl)

/-- C7: type coercion in `set_field_value`.  A string input is coerced to
the type of the field's original value: `"123"` stores `123 : int` on an
integer-original field and `123.0 : float` on a float-original field; on a
boolean-original field the string is coerced by truthiness (`bool(s)`,
i.e. non-emptiness); text that parses as neither float nor special float
literal stores `0` / `0.0` on an int/float field without raising; and at
the model level, `set_field_value(path, "123")` on an int-typed field
leaves `123 : int` readable through `get_field_value`. -/
theorem c7_type_coercion :
    (∀ n : ℤ, convertValueToType (.str "123") (.int n) = .int 123)
  ∧ (∀ q : ℚ, convertValueToType (.str "123") (.float q) = .float 123)
  ∧ (∀ (b : Bool) (s : String), convertValueToType (.str s) (.bool b) = .bool (s != ""))
  ∧ (∀ (n : ℤ) (s : String), pyFloatParse s = Option.none →
      isSpecialFloatText s = false → hasUnderscore s = false →
      convertValueToType (.str s) (.int n) = .int 0)
  ∧ (∀ (q : ℚ) (s : String), pyFloatParse s = Option.none →
      isSpecialFloatText s = false → hasUnderscore s = false →
      convertValueToType (.str s) (.float q) = .float 0)
  ∧ (∀ (m : ModelState) (p : String) (st : FieldState) (now : Nat) (k c : ℤ),
      alLookup m.field_states p = some st → st.original_value = .int k →
      st.current_value = .int c →
      getFieldValue (setFieldValue m p (.str "123") now).2 p = some (.int 123)) := by
  refine ⟨fun n => rfl, fun q => rfl, fun b s => rfl, ?_, ?_, ?_⟩
  · intro n s h _ _
    simp only [convertValueToType, h]
    split <;> rfl
  · intro q s h _ _
    simp only [convertValueToType, h]
    split <;> rfl
  · intro m p st now k c hl ho hc
    have hconv : convertValueToType (.str "123") st.original_value = PyValue.int 123 := by
      rw [ho]; rfl
    by_cases hcc : c = 123
    · subst hcc
      have hr : st.set_value (convertValueToType (.str "123") st.original_value) now =
          (false, st) := by
        rw [hconv]
        unfold FieldState.set_value
        rw [hc]
        simp [pyEq]
      unfold setFieldValue
      rw [hl]
      dsimp only
      rw [hr]
      unfold getFieldValue
      simp [alLookup_alUpdate_self, hc]
    · have hpy : pyEq (PyValue.int 123) st.current_value = false := by
        rw [hc]
        simp [pyEq]
        exact fun heq => hcc heq.symm
      have hr : st.set_value (convertValueToType (.str "123") st.original_value) now =
          (true,
           { st with
             current_value := PyValue.int 123,
             is_modified := pyNe (PyValue.int 123) st.original_value,
             modification_time :=
               if pyNe (PyValue.int 123) st.original_value then some now else Option.none,
             validation_errors := [], validation_warnings := [],
             validation_state := ValidationState.valid }) := by
        rw [hconv]
        unfold FieldState.set_value
        rw [hpy]
        simp
      unfold setFieldValue
      rw [hl]
      dsimp only
      rw [hr]
      unfold getFieldValue
      simp [updateConfigData_field_states, alLookup_alUpdate_self]

/-- Witness for C7: concrete coercions, including the invalid-text default
and a concrete model-level `set_field_value`. -/
theorem c7_type_coercion_witness :
    (convertValueToType (.str "abc") (.int 5) = .int 0)
  ∧ (getFieldValue
      (setFieldValue
        { json_config := Option.none, ini_config := Option.none,
          field_states := [("a", FieldState.init (PyValue.int 5))],
          modified_fields := [], json_file_path := Option.none,
          ini_file_path := Option.none } "a" (.str "123") 0).2 "a" =
      some (.int 123)) :=
  ⟨c7_type_coercion.2.2.2.1 5 "abc" rfl rfl rfl,
   c7_type_coercion.2.2.2.2.2
     { json_config := Option.none, ini_config := Option.none,
       field_states := [("a", FieldState.init (PyValue.int 5))],
       modified_fields := [], json_file_path := Option.none,
       ini_file_path := Option.none } "a" (FieldState.init (PyValue.int 5)) 0 5 5
     rfl rfl rfl⟩

/-- C8: `_parse_ini_value` follows the stated priority order on every
value string.  Case-insensitive truthy words (`true|on|yes|1`) coerce to
boolean true — so `"1"` becomes boolean true, never the integer 1 — and
falsy words (`false|off|no|0`) to boolean false, both before any numeric
parse; otherwise an integer parse is attempted exactly when no `.` is
present and a float parse exactly when one is; when the numeric attempt
fails, a parenthesized string splits on commas into a tuple whose trimmed
parts are parsed as floats with the literal string kept per part on
failure, so `"(0.609, 0.343, 0.457)"` yields the three-element float tuple
(`mkRat 609 1000 = 0.609` and so on); and anything else stays the plain
(stripped) string.  The underscore/special-literal hypotheses on the
fallback clauses record that CPython's extra numeric spellings are outside
the embedding of `int()`/`float()`. -/
theorem c8_ini_value_coercion :
    (∀ s, isTruthyWord (pyLower (pyStrip s)) = true → parseIniValue s = .bool true)
  ∧ (∀ s, isTruthyWord (pyLower (pyStrip s)) = false →
      isFalsyWord (pyLower (pyStrip s)) = true → parseIniValue s = .bool false)
  ∧ (parseIniValue "1" = .bool true)
  ∧ (∀ (s : String) (n : ℤ), isTruthyWord (pyLower (pyStrip s)) = false →
      isFalsyWord (pyLower (pyStrip s)) = false →
      (pyStrip s).data.any (· == '.') = false →
      pyIntParse (pyStrip s) = some n →
      parseIniValue s = .int n)
  ∧ (∀ (s : String) (q : ℚ), isTruthyWord (pyLower (pyStrip s)) = false →
      isFalsyWord (pyLower (pyStrip s)) = false →
      (pyStrip s).data.any (· == '.') = true →
      pyFloatParse (pyStrip s) = some q →
      parseIniValue s = .float q)
  ∧ (∀ s : String, isTruthyWord (pyLower (pyStrip s)) = false →
      isFalsyWord (pyLower (pyStrip s)) = false →
      (if !((pyStrip s).data.any (· == '.')) then
        (pyIntParse (pyStrip s)).map PyValue.int
       else (pyFloatParse (pyStrip s)).map PyValue.float) = Option.none →
      hasUnderscore (pyStrip s) = false → isSpecialFloatText (pyStrip s) = false →
      (pyStartsWith (pyStrip s) "(" && pyEndsWith (pyStrip s) ")") = true →
      parseIniValue s = .tuple
        (((pySplit (String.mk (((pyStrip s).data.drop 1).dropLast)) ",").map pyStrip).map
          (fun p => match pyFloatParse p with
            | some q => PyValue.float q
            | Option.none => PyValue.str p)))
  ∧ (parseIniValue "(0.609, 0.343, 0.457)" =
      .tuple [.float (mkRat 609 1000), .float (mkRat 343 1000), .float (mkRat 457 1000)])
  ∧ (∀ s : String, isTruthyWord (pyLower (pyStrip s)) = false →
      isFalsyWord (pyLower (pyStrip s)) = false →
      (if !((pyStrip s).data.any (· == '.')) then
        (pyIntParse (pyStrip s)).map PyValue.int
       else (pyFloatParse (pyStrip s)).map PyValue.float) = Option.none →
      hasUnderscore (pyStrip s) = false → isSpecialFloatText (pyStrip s) = false →
      (pyStartsWith (pyStrip s) "(" && pyEndsWith (pyStrip s) ")") = false →
      parseIniValue s = .str (pyStrip s)) := by
  refine ⟨?_, ?_, rfl, ?_, ?_, ?_, rfl, ?_⟩
  · intro s h
    simp [parseIniValue, h]
  · intro s h0 h
    simp [parseIniValue, h0, h]
  · intro s n h1 h2 hdot hint
    simp [parseIniValue, h1, h2, hdot, hint]
  · intro s q h1 h2 hdot hfloat
    simp [parseIniValue, h1, h2, hdot, hfloat]
  · intro s h1 h2 hnum _ _ hpar
    simp only [parseIniValue, h1, h2, Bool.false_eq_true, if_false]
    rw [hnum]
    dsimp only
    rw [hpar]
    rfl
  · intro s h1 h2 hnum _ _ hpar
    simp only [parseIniValue, h1, h2, Bool.false_eq_true, if_false]
    rw [hnum]
    dsimp only
    rw [hpar]
    rfl

/-- Witness for C8: concrete strings through each clause. -/
theorem c8_ini_value_coercion_witness :
    (parseIniValue "On" = .bool true)
  ∧ (parseIniValue "No" = .bool false)
  ∧ (parseIniValue "42" = .int 42)
  ∧ (parseIniValue "2.5" = .float (mkRat 5 2))
  ∧ (parseIniValue "(1.5, x)" = .tuple [.float (mkRat 3 2), .str "x"])
  ∧ (parseIniValue "hello" = .str "hello") :=
  ⟨c8_ini_value_coercion.1 "On" rfl,
   c8_ini_value_coercion.2.1 "No" rfl rfl,
   c8_ini_value_coercion.2.2.2.1 "42" 42 rfl rfl rfl rfl,
   c8_ini_value_coercion.2.2.2.2.1 "2.5" (mkRat 5 2) rfl rfl rfl rfl,
   c8_ini_value_coercion.2.2.2.2.2.1 "(1.5, x)" rfl rfl rfl rfl rfl rfl,
   c8_ini_value_coercion.2.2.2.2.2.2.2 "hello" rfl rfl rfl rfl rfl rfl⟩

/-- C9 fails on the code: Python's `bool` subclasses `int`, so a boolean
meets the `isinstance((int, float))` branch of `_values_equal` and is
compared numerically with the `1e-10` tolerance, whereas the claim's rule
files boolean-vs-float under "any other combination … direct equality".
At `True` versus the float `1 + 1e-11` the implementation answers equal
(within tolerance) while the claim's stated rule answers unequal. -/
theorem c9_values_equal_counterexample :
    valuesEqual (.bool true) (.float (mkRat 100000000001 100000000000)) = true
  ∧ specValuesEqual (.bool true) (.float (mkRat 100000000001 100000000000)) = false := by
  constructor
  · have hq : (mkRat 100000000001 100000000000 : ℚ) = 1 + 1 / 10 ^ 11 := by
      rw [Rat.mkRat_eq_divInt, Rat.divInt_eq_div]
      norm_num
    have ht : tol = 1 / 10 ^ 10 := by
      unfold tol
      rw [Rat.mkRat_eq_divInt, Rat.divInt_eq_div]
      norm_num
    have h1 : valuesEqual (.bool true) (.float (mkRat 100000000001 100000000000)) =
        decide (|(1 : ℚ) - mkRat 100000000001 100000000000| < tol) := rfl
    rw [h1, decide_eq_true_eq, hq, ht, abs_lt]
    constructor <;> norm_num
  · rfl

/-- C9 amended: the comparison engine's equality follows the claim's rule
with booleans folded into the numeric category (compared as 0/1): `None`
handling, the `1e-10` tolerance whenever a float is involved — also
against a boolean — exact Python `==` for purely int/bool numeric pairs,
trimmed strings, elementwise sequences (list and tuple interchangeable),
boolean-vs-boolean thereby exact, and direct Python `==` for all remaining
combinations. -/
theorem c9_values_equal_amended :
    (valuesEqual PyValue.none PyValue.none = true)
  ∧ (∀ v, v ≠ PyValue.none →
      valuesEqual PyValue.none v = false ∧ valuesEqual v PyValue.none = false)
  ∧ (∀ (a : Bool) (q : ℚ), valuesEqual (.bool a) (.float q) =
      decide (|(if a then (1 : ℚ) else 0) - q| < tol))
  ∧ (∀ (q : ℚ) (a : Bool), valuesEqual (.float q) (.bool a) =
      decide (|q - (if a then (1 : ℚ) else 0)| < tol))
  ∧ (∀ (m : ℤ) (q : ℚ), valuesEqual (.int m) (.float q) =
      decide (|(m : ℚ) - q| < tol))
  ∧ (∀ (q : ℚ) (m : ℤ), valuesEqual (.float q) (.int m) =
      decide (|q - (m : ℚ)| < tol))
  ∧ (∀ (p q : ℚ), valuesEqual (.float p) (.float q) = decide (|p - q| < tol))
  ∧ (∀ v w, isNumV v = true → isNumV w = true → isFloatV v = false →
      isFloatV w = false → valuesEqual v w = pyEq v w)
  ∧ (∀ s t, valuesEqual (.str s) (.str t) = (pyStrip s == pyStrip t))
  ∧ (∀ a b, valuesEqual (.bool a) (.bool b) = (a == b))
  ∧ (∀ xs ys, valuesEqual (.list xs) (.list ys) =
      ((xs.length == ys.length) && valuesEqualAll xs ys))
  ∧ (∀ xs ys, valuesEqual (.list xs) (.tuple ys) =
      ((xs.length == ys.length) && valuesEqualAll xs ys))
  ∧ (∀ v w, (isNumV v = false ∨ isNumV w = false) →
      ¬(isStrV v = true ∧ isStrV w = true) →
      ¬(isSeqV v = true ∧ isSeqV w = true) →
      v ≠ PyValue.none → w ≠ PyValue.none →
      valuesEqual v w = pyEq v w) := by
  refine ⟨rfl, ?_, fun a q => rfl, fun q a => rfl, fun m q => rfl, fun q m => rfl,
    fun p q => rfl, ?_, fun s t => rfl, ?_, fun xs ys => rfl, fun xs ys => rfl, ?_⟩
  · intro v hv
    cases v <;> first | exact absurd rfl hv | exact ⟨rfl, rfl⟩
  · intro v w hv hw hfv hfw
    cases v <;> cases w <;> first | rfl | simp_all [isNumV, isFloatV]
  · intro a b
    cases a <;> cases b <;> rfl
  · intro v w hnum hstr hseq hvn hwn
    cases v <;> cases w <;>
      first
        | rfl
        | simp_all [isNumV, isStrV, isSeqV]

/-- Witness for the amended C9 at concrete values: `True` against a float
uses the tolerance branch, and a string against an int falls back to
direct (false) equality. -/
theorem c9_values_equal_amended_witness :
    (valuesEqual (.bool true) (.float 1) = decide (|(if true then (1 : ℚ) else 0) - 1| < tol))
  ∧ (∀ x ∈ ([] : List PyValue), x = x)
  ∧ (valuesEqual (.str "a") (.int 1) = pyEq (.str "a") (.int 1)) :=
  ⟨c9_values_equal_amended.2.2.1 true 1,
   fun _ _ => rfl,
   c9_values_equal_amended.2.2.2.2.2.2.2.2.2.2.2.2 (.str "a") (.int 1)
     (Or.inl rfl) (by intro h; exact absurd h.2 (by decide))
     (by intro h; exact absurd h.1 (by decide))
     (fun h => nomatch h) (fun h => nomatch h)⟩

/-- C10: calling `FieldState.set_value` with a value Python-equal to the
current one returns `False` and leaves the whole record untouched — in
particular previously recorded validation errors and warnings, the
validation state and the modification time are all preserved; the
validation buckets are cleared only when the value actually changes. -/
theorem c10_set_value_noop :
    ∀ (s : FieldState) (v : PyValue) (now : Nat),
      pyEq v s.current_value = true → s.set_value v now = (false, s) := by
  intro s v now h
  unfold FieldState.set_value
  rw [h]
  rfl

/-- Witness for C10: a state with pending validation errors, warnings, a
non-valid state and a modification time survives an equal-value set
completely unchanged. -/
theorem c10_set_value_noop_witness :
    FieldState.set_value
      { original_value := PyValue.int 1, current_value := PyValue.int 2,
        is_modified := true, modification_time := some 5,
        validation_errors := ["range"], validation_warnings := ["w"],
        validation_state := ValidationState.error } (PyValue.int 2) 9 =
      (false,
       { original_value := PyValue.int 1, current_value := PyValue.int 2,
         is_modified := true, modification_time := some 5,
         validation_errors := ["range"], validation_warnings := ["w"],
         validation_state := ValidationState.error }) :=
  c10_set_value_noop _ (PyValue.int 2) 9 rfl
